import Mathlib

/-
Verification of the row/index storage layer in table/tables/tables.go.

The table operations (AddRecord, UpdateRecord, RemoveRecord, RowWithCols,
Seek and their helpers) are translated from the source.  The collaborator
packages (kv, tablecodec, the index implementation, the expression
evaluator and the allocator) are not part of the sources, so they are
modelled from the specification; each such definition carries a doc
comment saying so.
-/

set_option maxHeartbeats 1000000

namespace TidbTables

/-- Column value kinds carried by types.Datum, restricted to the kinds this
layer manipulates; the constructor named unsupported stands for a value kind
that the value codec rejects. -/
inductive Datum where
  | null
  | int (v : Int)
  | uint (v : Nat)
  | str (s : String)
  | unsupported
deriving DecidableEq

def Datum.isNull : Datum → Bool
  | .null => true
  | _ => false

def Datum.GetInt64 : Datum → Int
  | .int v => v
  | .uint v => Int.ofNat v
  | _ => 0

/-- Schema lifecycle states of columns and indices, following the model package. -/
inductive SchemaState where
  | stateNone
  | stateWriteOnly
  | stateWriteReorganization
  | statePublic
  | stateDeleteOnly
  | stateDeleteReorganization
deriving DecidableEq

/-- Error values by class, mirroring the kv and table error codes tables.go
distinguishes with terror.ErrorEqual. -/
inductive Err where
  | notExist
  | keyExists (msg : String)
  | columnStateNonPublic
  | codecUnsupported
  | offsetOutOfBound
  | invalidRecordKey
  | decodeFailed
  | stringifyFailed
deriving DecidableEq

def Err.isNotExist : Err → Bool
  | .notExist => true
  | _ => false

def Err.isKeyExists : Err → Bool
  | .keyExists _ => true
  | _ => false

/-- Modelled from the spec: the tablecodec package is not among the sources, so
keys are modelled structurally after the persisted layout of the spec: a record
key is record prefix, handle and column id (column id 0 addresses the row lock
entry); an index key is index prefix, index id and the encoded column values,
extended by the handle for entries that are not distinct. -/
inductive KVKey where
  | recKey (tid : Int) (h : Int) (colID : Int)
  | idxEntry (tid : Int) (idxID : Int) (vals : List Datum) (h : Option Int)
deriving DecidableEq

def KVKey.idxIdOf : KVKey → Option Int
  | .idxEntry _ i _ _ => some i
  | _ => none

def KVKey.isIdx : KVKey → Bool
  | .idxEntry _ _ _ _ => true
  | _ => false

/-- HasPrefix of a key against the record prefix of a table. -/
def KVKey.belongsToRecords : KVKey → Int → Bool
  | .recKey tid2 _ _, tid => tid2 == tid
  | _, _ => false

/-- Stored payloads: encoded column values, index handle payloads, and the
row lock marker LockRow writes at column id 0. -/
inductive Val where
  | datum (d : Datum)
  | handle (h : Int)
  | lock
deriving DecidableEq

abbrev Store := KVKey → Option Val

/-- Modelled from the spec: the transactional kv store with get, set, delete
and the per-transaction presume-key-not-exists hint around a chosen error. -/
structure Txn where
  store : Store
  presumeKeyNotExists : Option Err

def txnGet (txn : Txn) (k : KVKey) : Except Err Val :=
  match txn.store k with
  | some v => .ok v
  | none => .error .notExist

def txnSet (txn : Txn) (k : KVKey) (v : Val) : Txn :=
  { txn with store := fun q => if q = k then some v else txn.store q }

/-- Modelled from the spec: deleting an absent key surfaces the key-not-found
class, the tolerance case of the removal paths. -/
def txnDelete (txn : Txn) (k : KVKey) : Except Err Txn :=
  match txn.store k with
  | some _ => .ok { txn with store := fun q => if q = k then none else txn.store q }
  | none => .error .notExist

def setOption (txn : Txn) (e : Err) : Txn := { txn with presumeKeyNotExists := some e }

def delOption (txn : Txn) : Txn := { txn with presumeKeyNotExists := none }

/-- Modelled from the spec: the Buffered Mutation Scope (kv.BufferStore), a
staging area of pending writes and deletes over the transaction, merged into
it by SaveTo and discarded by Release.  An entry maps a key to some value
(pending write) or to nothing (pending delete). -/
structure BufStore where
  buf : KVKey → Option (Option Val)

def emptyBS : BufStore := ⟨fun _ => none⟩

def bsGet (bs : BufStore) (txn : Txn) (k : KVKey) : Except Err Val :=
  match bs.buf k with
  | some (some v) => .ok v
  | some none => .error .notExist
  | none => txnGet txn k

def bsSet (bs : BufStore) (k : KVKey) (v : Val) : BufStore :=
  ⟨fun q => if q = k then some (some v) else bs.buf q⟩

def bsDelete (bs : BufStore) (txn : Txn) (k : KVKey) : Except Err BufStore :=
  match bsGet bs txn k with
  | .ok _ => .ok ⟨fun q => if q = k then some none else bs.buf q⟩
  | .error e => .error e

def bsSaveTo (bs : BufStore) (txn : Txn) : Txn :=
  { txn with
    store := fun q =>
      match bs.buf q with
      | some (some v) => some v
      | some none => none
      | none => txn.store q }

/-- Column metadata: id, row offset, lifecycle state, flags and default,
following table.Column and its ColumnInfo. -/
structure Column where
  id : Int
  offset : Nat
  state : SchemaState
  priKeyFlag : Bool
  notNullFlag : Bool
  unsignedFlag : Bool
  onUpdateNowFlag : Bool
  defaultValue : Option Datum
deriving DecidableEq

/-- Index metadata following model.IndexInfo: the offsets of the indexed
columns, the unique and primary flags, and the lifecycle state. -/
structure IndexInfo where
  id : Int
  name : String
  columns : List Nat
  unique : Bool
  primary : Bool
  state : SchemaState
deriving DecidableEq

/-- The Table of tables.go: id, the full column list, the index list, and the
PKIsHandle flag of its meta. -/
structure Table where
  id : Int
  columns : List Column
  indices : List IndexInfo
  pkIsHandle : Bool

/-- Cols of tables.go: the public columns. -/
def Table.Cols (t : Table) : List Column :=
  t.columns.filter fun c => decide (c.state = SchemaState.statePublic)

/-- writableCols of tables.go: every column except those in a delete state. -/
def Table.writableCols (t : Table) : List Column :=
  t.columns.filter fun c =>
    decide (¬(c.state = SchemaState.stateDeleteOnly ∨ c.state = SchemaState.stateDeleteReorganization))

/-- IsPKHandleColumn: the meta has PKIsHandle and the column carries the
primary key flag. -/
def Table.isPKHandleColumn (t : Table) (c : Column) : Bool :=
  t.pkIsHandle && c.priKeyFlag

/-- RecordKey of tables.go: column id 0 when no column is given. -/
def Table.recordKey (t : Table) (h : Int) (col : Option Column) : KVKey :=
  KVKey.recKey t.id h (match col with | some c => c.id | none => 0)

/-- Modelled from the spec: tablecodec.EncodeValue type-tags and encodes one
column value and rejects unsupported kinds. -/
def encodeValue : Datum → Except Err Val
  | .unsupported => .error .codecUnsupported
  | d => .ok (.datum d)

/-- Modelled from the spec: tablecodec.DecodeColumnValue, the inverse of
encodeValue on encoded column payloads. -/
def decodeColumnValue : Val → Except Err Datum
  | .datum d => .ok d
  | _ => .error .decodeFailed

/-- Modelled from the spec: types.ToString as used for the duplicate entry
message; it fails on a kind it cannot stringify. -/
def datumToString : Datum → Except Err String
  | .int v => .ok (toString v)
  | .uint v => .ok (toString v)
  | .str s => .ok s
  | .null => .ok "NULL"
  | .unsupported => .error .stringifyFailed

def genIndexKeyStrLoop : List Datum → Except Err (List String)
  | [] => .ok []
  | cv :: rest =>
    match (if cv.isNull then Except.ok "NULL" else datumToString cv : Except Err String) with
    | .error e => .error e
    | .ok s =>
      match genIndexKeyStrLoop rest with
      | .error e => .error e
      | .ok ss => .ok (s :: ss)

/-- genIndexKeyStr of tables.go: join the stringified column values with a
dash; a null value prints as NULL. -/
def genIndexKeyStr (colVals : List Datum) : Except Err String :=
  match genIndexKeyStrLoop colVals with
  | .error e => .error e
  | .ok ss => .ok (String.intercalate "-" ss)

/-- Modelled from the spec: table.GetColDefaultValue, the evaluated default of
a column, null when the column declares none. -/
def GetColDefaultValue (c : Column) : Except Err Datum :=
  match c.defaultValue with
  | some d => .ok d
  | none => .ok .null

/-- Modelled from the spec: table.CastValue coerces a value into the column
type. -/
def CastValue (d : Datum) (_c : Column) : Except Err Datum := .ok d

/-- Modelled from the spec: evaluator.GetTimeValue, the current timestamp for
on-update columns. -/
def currentTimestampDatum : Datum := .int 20161011

def fetchValuesLoop (r : List Datum) : List Nat → Except Err (List Datum)
  | [] => .ok []
  | off :: rest =>
    match r[off]? with
    | none => .error .offsetOutOfBound
    | some v =>
      match fetchValuesLoop r rest with
      | .error e => .error e
      | .ok vs => .ok (v :: vs)

/-- Modelled from the spec: Index.FetchValues picks the indexed column values
of a row by offset; an offset outside the row is an error. -/
def idxFetchValues (idx : IndexInfo) (r : List Datum) : Except Err (List Datum) :=
  fetchValuesLoop r idx.columns

/-- Modelled from the spec: an index entry is distinct when the index is
unique or primary and no indexed value is null. -/
def idxDistinct (idx : IndexInfo) (vals : List Datum) : Bool :=
  (idx.unique || idx.primary) && !(vals.any Datum.isNull)

/-- Modelled from the spec: the key of one index entry; a distinct entry omits
the handle, any other entry carries the handle inside the key. -/
def idxKey (tid : Int) (idx : IndexInfo) (vals : List Datum) (h : Int) : KVKey :=
  if idxDistinct idx vals then .idxEntry tid idx.id vals none else .idxEntry tid idx.id vals (some h)

/-- Modelled from the spec: Index.Create writes one entry through the given
scope; creating a distinct entry that already exists fails with the key-exists
class. -/
def idxCreate (tid : Int) (idx : IndexInfo) (bs : BufStore) (txn : Txn)
    (vals : List Datum) (h : Int) : Except Err BufStore :=
  let key := idxKey tid idx vals h
  if idxDistinct idx vals then
    match bsGet bs txn key with
    | .ok _ => .error (.keyExists "index entry exists")
    | .error e => if e.isNotExist then .ok (bsSet bs key (.handle h)) else .error e
  else .ok (bsSet bs key (.handle h))

/-- Modelled from the spec: Index.Delete through a buffered scope; deleting an
absent entry surfaces the key-not-found class. -/
def idxDeleteBS (tid : Int) (idx : IndexInfo) (bs : BufStore) (txn : Txn)
    (vals : List Datum) (h : Int) : Except Err BufStore :=
  bsDelete bs txn (idxKey tid idx vals h)

/-- Modelled from the spec: Index.Delete directly against the transaction. -/
def idxDeleteTxn (tid : Int) (idx : IndexInfo) (txn : Txn)
    (vals : List Datum) (h : Int) : Except Err Txn :=
  txnDelete txn (idxKey tid idx vals h)

/-- Modelled from the spec: seeking the index at the same values and taking
the next entry recovers the handle of the existing conflicting row. -/
def idxSeekHandle (tid : Int) (idx : IndexInfo) (bs : BufStore) (txn : Txn)
    (vals : List Datum) : Except Err Int :=
  match bsGet bs txn (.idxEntry tid idx.id vals none) with
  | .ok (.handle h) => .ok h
  | .ok _ => .error .decodeFailed
  | .error e => .error e

/-- SetColValue of tables.go instantiated at a plain transaction mutator, the
instance AddRecord uses. -/
def SetColValueTxn (txn : Txn) (key : KVKey) (data : Datum) : Except Err Txn :=
  match encodeValue data with
  | .error e => .error e
  | .ok v => .ok (txnSet txn key v)

/-- SetColValue of tables.go instantiated at a buffered scope mutator, the
instance setNewData uses. -/
def SetColValueBS (bs : BufStore) (key : KVKey) (data : Datum) : Except Err BufStore :=
  match encodeValue data with
  | .error e => .error e
  | .ok v => .ok (bsSet bs key v)

/-- LockRow of tables.go: for a write lock, set the row lock key to the
transaction marker. -/
def LockRow (t : Table) (txn : Txn) (h : Int) (forRead : Bool) : Except Err Txn :=
  if forRead then .ok txn
  else .ok (txnSet txn (t.recordKey h none) .lock)

/-- The per-operation mutable state around a Table: the transaction, the next
handle of the allocator (modelled from the spec: the autoid allocator issues
increasing handles), and the affected-rows session counter. -/
structure Ctx where
  txn : Txn
  allocNext : Int
  affectedRows : Nat

/-- The index loop of addIndices in tables.go.  The source drops the error of
FetchValues (the second result is assigned to the blank identifier), and for a
unique or primary index it pre-composes the duplicate error, installs it as
the presume-key-not-exists hint, and on a key-exists conflict from Create it
seeks the index to recover the existing handle and returns that handle with
the pre-composed error. -/
def addIndicesLoop (t : Table) (recordID : Int) (r : List Datum) :
    List IndexInfo → BufStore → Txn → (Int × Option Err) × BufStore × Txn
  | [], bs, txn => ((0, none), bs, txn)
  | v :: rest, bs, txn =>
    if v.state = SchemaState.stateDeleteOnly ∨ v.state = SchemaState.stateDeleteReorganization then
      addIndicesLoop t recordID r rest bs txn
    else
      let colVals :=
        match idxFetchValues v r with
        | .ok vs => vs
        | .error _ => []
      match (if v.unique || v.primary then
              match genIndexKeyStr colVals with
              | .error e1 => Except.error e1
              | .ok entryKey =>
                Except.ok (some (Err.keyExists
                  ("Duplicate entry " ++ entryKey ++ " for key " ++ v.name)))
            else Except.ok none : Except Err (Option Err)) with
      | .error e1 => ((0, some e1), bs, txn)
      | .ok dupKeyErr =>
        let txn1 :=
          match dupKeyErr with
          | some e => setOption txn e
          | none => txn
        match idxCreate t.id v bs txn1 colVals recordID with
        | .ok bs1 => addIndicesLoop t recordID r rest bs1 (delOption txn1)
        | .error err =>
          if err.isKeyExists then
            match idxSeekHandle t.id v bs txn1 colVals with
            | .error e1 => ((0, some e1), bs, txn1)
            | .ok h2 => ((h2, dupKeyErr), bs, txn1)
          else ((0, some err), bs, txn1)

/-- The body of addIndices before its deferred DelOption: for a PKIsHandle
table, probe the record key under the pre-composed duplicate error first. -/
def addIndicesInner (t : Table) (recordID : Int) (r : List Datum)
    (bs : BufStore) (txn : Txn) : (Int × Option Err) × BufStore × Txn :=
  if t.pkIsHandle then
    let recKey := t.recordKey recordID none
    let e := Err.keyExists ("Duplicate entry " ++ toString recordID ++ " for key PRIMARY")
    let txn1 := setOption txn e
    match txnGet txn1 recKey with
    | .ok _ => ((recordID, some e), bs, txn1)
    | .error err =>
      if err.isNotExist then addIndicesLoop t recordID r t.indices bs (delOption txn1)
      else ((0, some err), bs, txn1)
  else addIndicesLoop t recordID r t.indices bs txn

/-- addIndices of tables.go; the deferred DelOption clears the hint on every
exit path. -/
def addIndices (t : Table) (recordID : Int) (r : List Datum)
    (bs : BufStore) (txn : Txn) : (Int × Option Err) × BufStore × Txn :=
  match addIndicesInner t recordID r bs txn with
  | (res, bs1, txn1) => (res, bs1, delOption txn1)

/-- The column-writing loop of AddRecord: over the writable columns, skipping
the PKIsHandle column and null values without default; a write-state column is
written with its cast default.  The writes go through SetColValue applied to
the transaction itself, not to the buffered scope. -/
def addRecordColsLoop (t : Table) (recordID : Int) (r : List Datum) :
    List Column → Txn → Option Err × Txn
  | [], txn => (none, txn)
  | col :: rest, txn =>
    if t.isPKHandleColumn col then addRecordColsLoop t recordID r rest txn
    else if col.defaultValue = none ∧ (r.getD col.offset Datum.null).isNull = true then
      addRecordColsLoop t recordID r rest txn
    else
      match (if col.state = SchemaState.stateWriteOnly ∨
                col.state = SchemaState.stateWriteReorganization then
              match GetColDefaultValue col with
              | .error e => Except.error e
              | .ok v0 => CastValue v0 col
            else Except.ok (r.getD col.offset Datum.null) : Except Err Datum) with
      | .error e => (some e, txn)
      | .ok value =>
        match SetColValueTxn txn (t.recordKey recordID (some col)) value with
        | .error e => (some e, txn)
        | .ok txn1 => addRecordColsLoop t recordID r rest txn1

/-- The body of AddRecord after the handle has been determined: open a scope,
insert the index entries through it, lock the row, write the columns directly
to the transaction, and merge the scope on success. -/
def addRecordBody (t : Table) (ctx : Ctx) (r : List Datum)
    (recordID allocNext2 : Int) : (Int × Option Err) × Ctx :=
  match addIndices t recordID r emptyBS ctx.txn with
  | ((h2, some err), _, txn1) =>
    ((h2, some err), { ctx with txn := txn1, allocNext := allocNext2 })
  | ((_, none), bs1, txn1) =>
    match LockRow t txn1 recordID false with
    | .error err => ((0, some err), { ctx with txn := txn1, allocNext := allocNext2 })
    | .ok txn2 =>
      match addRecordColsLoop t recordID r t.writableCols txn2 with
      | (some err, txn3) => ((0, some err), { ctx with txn := txn3, allocNext := allocNext2 })
      | (none, txn3) =>
        ((recordID, none),
         { txn := bsSaveTo bs1 txn3, allocNext := allocNext2,
           affectedRows := ctx.affectedRows + 1 })

/-- AddRecord of tables.go: the handle is the value of the PKIsHandle column
when one exists among the public columns, otherwise a fresh allocator handle. -/
def AddRecord (t : Table) (ctx : Ctx) (r : List Datum) : (Int × Option Err) × Ctx :=
  match t.Cols.find? (fun c => t.isPKHandleColumn c) with
  | some col => addRecordBody t ctx r ((r.getD col.offset Datum.null).GetInt64) ctx.allocNext
  | none => addRecordBody t ctx r ctx.allocNext (ctx.allocNext + 1)

/-- FindOnUpdateCols of the table package: the columns with the on-update flag. -/
def FindOnUpdateCols (cols : List Column) : List Column :=
  cols.filter fun c => c.onUpdateNowFlag

def setOnUpdateDataLoop : List Column → List Nat → List Datum → List Nat × List Datum
  | [], touched, data => (touched, data)
  | col :: rest, touched, data =>
    if touched.contains col.offset then setOnUpdateDataLoop rest touched data
    else setOnUpdateDataLoop rest (col.offset :: touched)
      (data.set col.offset currentTimestampDatum)

/-- setOnUpdateData of tables.go: every on-update writable column that is not
already touched receives the current timestamp and becomes touched. -/
def setOnUpdateData (t : Table) (touched : List Nat) (data : List Datum) :
    List Nat × List Datum :=
  setOnUpdateDataLoop (FindOnUpdateCols t.writableCols) touched data

def setNewDataLoop (t : Table) (h : Int) (touched : List Nat) (data : List Datum) :
    List Column → BufStore → Except Err BufStore
  | [], bs => .ok bs
  | col :: rest, bs =>
    if touched.contains col.offset then
      match SetColValueBS bs (t.recordKey h (some col)) (data.getD col.offset Datum.null) with
      | .error e => .error e
      | .ok bs1 => setNewDataLoop t h touched data rest bs1
    else setNewDataLoop t h touched data rest bs

/-- setNewData of tables.go: stage a column write for every touched column of
the public column list Cols into the buffered scope. -/
def setNewData (t : Table) (bs : BufStore) (h : Int) (touched : List Nat)
    (data : List Datum) : Except Err BufStore :=
  setNewDataLoop t h touched data t.Cols bs

/-- removeRowIndex of tables.go, through the buffered scope. -/
def removeRowIndex (t : Table) (bs : BufStore) (txn : Txn) (h : Int)
    (vals : List Datum) (idx : IndexInfo) : Except Err BufStore :=
  idxDeleteBS t.id idx bs txn vals h

/-- buildIndexForRow of tables.go: an index in a delete state is skipped. -/
def buildIndexForRow (t : Table) (bs : BufStore) (txn : Txn) (h : Int)
    (vals : List Datum) (idx : IndexInfo) : Except Err BufStore :=
  if idx.state = SchemaState.stateDeleteOnly ∨ idx.state = SchemaState.stateDeleteReorganization
  then .ok bs
  else idxCreate t.id idx bs txn vals h

def idxTouchedB (touched : List Nat) (idx : IndexInfo) : Bool :=
  idx.columns.any fun off => touched.contains off

/-- The index loop of rebuildIndices in tables.go.  The source contains the
statement testing err after calling removeRowIndex without assigning its
result, so the error of the staged delete is discarded: the condition tests
the stale err of FetchValues, which is nil at that point, and the loop
continues with the old scope when the delete failed. -/
def rebuildIndicesLoop (t : Table) (txn : Txn) (h : Int) (touched : List Nat)
    (oldData newData : List Datum) : List IndexInfo → BufStore → Except Err BufStore
  | [], bs => .ok bs
  | idx :: rest, bs =>
    if idxTouchedB touched idx then
      match idxFetchValues idx oldData with
      | .error e => .error e
      | .ok oldVs =>
        let bs1 :=
          match removeRowIndex t bs txn h oldVs idx with
          | .ok b => b
          | .error _ => bs
        match idxFetchValues idx newData with
        | .error e => .error e
        | .ok newVs =>
          match buildIndexForRow t bs1 txn h newVs idx with
          | .error e => .error e
          | .ok bs2 => rebuildIndicesLoop t txn h touched oldData newData rest bs2
    else rebuildIndicesLoop t txn h touched oldData newData rest bs

/-- rebuildIndices of tables.go: only indices with a touched column are
rewritten. -/
def rebuildIndices (t : Table) (bs : BufStore) (txn : Txn) (h : Int)
    (touched : List Nat) (oldData newData : List Datum) : Except Err BufStore :=
  rebuildIndicesLoop t txn h touched oldData newData t.indices bs

/-- The currentData slice of UpdateRecord: sized to the writable columns and
filled from newData, missing positions holding the zero Datum (null). -/
def updCurrentData (t : Table) (newData : List Datum) : List Datum :=
  newData.take t.writableCols.length ++
    List.replicate (t.writableCols.length - newData.length) Datum.null

/-- UpdateRecord of tables.go: augment the touched set with on-update columns,
stage the touched column writes and the index rewrites in a buffered scope,
and merge the scope into the transaction on success. -/
def UpdateRecord (t : Table) (ctx : Ctx) (h : Int) (oldData newData : List Datum)
    (touched : List Nat) : Option Err × Ctx :=
  match setOnUpdateData t touched (updCurrentData t newData) with
  | (touched1, currentData1) =>
    match setNewData t emptyBS h touched1 currentData1 with
    | .error e => (some e, ctx)
    | .ok bs1 =>
      match rebuildIndices t bs1 ctx.txn h touched1 oldData currentData1 with
      | .error e => (some e, ctx)
      | .ok bs2 => (none, { ctx with txn := bsSaveTo bs2 ctx.txn })

def removeRowDataLoop (t : Table) (h : Int) : List Column → Txn → Option Err × Txn
  | [], txn => (none, txn)
  | col :: rest, txn =>
    match txnDelete txn (t.recordKey h (some col)) with
    | .ok txn1 => removeRowDataLoop t h rest txn1
    | .error err =>
      if ¬col.state = SchemaState.statePublic ∧ err.isNotExist = true then
        removeRowDataLoop t h rest txn
      else (some err, txn)

/-- removeRowData of tables.go: lock the row, delete every column key of the
full column list tolerating key-not-found on non-public columns, then delete
the row lock key. -/
def removeRowData (t : Table) (txn : Txn) (h : Int) : Option Err × Txn :=
  match LockRow t txn h false with
  | .error e => (some e, txn)
  | .ok txn1 =>
    match removeRowDataLoop t h t.columns txn1 with
    | (some e, txn2) => (some e, txn2)
    | (none, txn2) =>
      match txnDelete txn2 (t.recordKey h none) with
      | .ok txn3 => (none, txn3)
      | .error e => (some e, txn2)

def removeRowIndicesLoop (t : Table) (h : Int) (r : List Datum) :
    List IndexInfo → Txn → Option Err × Txn
  | [], txn => (none, txn)
  | v :: rest, txn =>
    match idxFetchValues v r with
    | .error _ => removeRowIndicesLoop t h r rest txn
    | .ok vals =>
      match idxDeleteTxn t.id v txn vals h with
      | .ok txn1 => removeRowIndicesLoop t h r rest txn1
      | .error err =>
        if ¬v.state = SchemaState.statePublic ∧ err.isNotExist = true then
          removeRowIndicesLoop t h r rest txn
        else (some err, txn)

/-- removeRowIndices of tables.go: delete every index entry of the row,
skipping an index whose values do not resolve, and tolerating key-not-found on
non-public indices. -/
def removeRowIndices (t : Table) (txn : Txn) (h : Int) (r : List Datum) :
    Option Err × Txn :=
  removeRowIndicesLoop t h r t.indices txn

/-- RemoveRecord of tables.go: remove the row data, then the row indices. -/
def RemoveRecord (t : Table) (ctx : Ctx) (h : Int) (r : List Datum) : Option Err × Ctx :=
  match removeRowData t ctx.txn h with
  | (some e, txn1) => (some e, { ctx with txn := txn1 })
  | (none, txn1) =>
    match removeRowIndices t txn1 h r with
    | (some e, txn2) => (some e, { ctx with txn := txn2 })
    | (none, txn2) => (none, { ctx with txn := txn2 })

/-- The unsigned reinterpretation of a handle, as in uint64 conversion. -/
def toUint64 (h : Int) : Nat := (h % (2 ^ 64 : Int)).toNat

def RowWithColsLoop (t : Table) (txn : Txn) (h : Int) : List Column → Except Err (List Datum)
  | [] => .ok []
  | col :: rest =>
    if ¬col.state = SchemaState.statePublic then .error .columnStateNonPublic
    else if t.isPKHandleColumn col then
      match RowWithColsLoop t txn h rest with
      | .error e => .error e
      | .ok vs =>
        .ok ((if col.unsignedFlag then Datum.uint (toUint64 h) else Datum.int h) :: vs)
    else
      match txnGet txn (t.recordKey h (some col)) with
      | .error err =>
        if err.isNotExist = true ∧ col.notNullFlag = false then
          match RowWithColsLoop t txn h rest with
          | .error e => .error e
          | .ok vs => .ok (Datum.null :: vs)
        else .error err
      | .ok data =>
        match decodeColumnValue data with
        | .error e => .error e
        | .ok d =>
          match RowWithColsLoop t txn h rest with
          | .error e => .error e
          | .ok vs => .ok (d :: vs)

/-- RowWithCols of tables.go: a non-public column is an error, the PKIsHandle
column is synthesized from the handle without a storage read, a missing key is
tolerated as null only for nullable columns, any present value is decoded. -/
def RowWithCols (t : Table) (txn : Txn) (h : Int) (cols : List Column) :
    Except Err (List Datum) :=
  RowWithColsLoop t txn h cols

/-- Row of tables.go: RowWithCols over the public columns. -/
def Row (t : Table) (txn : Txn) (h : Int) : Except Err (List Datum) :=
  RowWithCols t txn h t.Cols

/-- The iterator view Table.Seek consumes: validity and current key. -/
structure Iter where
  valid : Bool
  key : KVKey
deriving DecidableEq

/-- Modelled from the spec: tablecodec.DecodeRowKey recovers the handle of a
record key and fails on any other key. -/
def DecodeRowKey : KVKey → Except Err Int
  | .recKey _ h _ => .ok h
  | .idxEntry _ _ _ _ => .error .invalidRecordKey

/-- Seek of tables.go.  The transaction seek is modelled as a function from
the seek key to an iterator and an error; the source binds that error but
never inspects it, moving straight to Valid and Key on the iterator, so only
the iterator component is consumed. -/
def Table.Seek (t : Table) (seekFn : KVKey → Iter × Option Err) (h : Int) :
    Int × Bool × Option Err :=
  let seekKey := KVKey.recKey t.id h 0
  let iter := (seekFn seekKey).1
  if ¬iter.valid = true ∨ ¬iter.key.belongsToRecords t.id = true then (0, false, none)
  else
    match DecodeRowKey iter.key with
    | .error err => (0, false, some err)
    | .ok handle => (handle, true, none)

/-! Concrete tables, transactions and contexts used by the claim theorems. -/

def txnEmpty : Txn := ⟨fun _ => none, none⟩

def ctxEmpty : Ctx := ⟨txnEmpty, 0, 0⟩

def colC1a : Column := ⟨1, 0, SchemaState.statePublic, false, false, false, false, none⟩

def colC1b : Column := ⟨2, 1, SchemaState.statePublic, false, false, false, false, none⟩

def tC1 : Table := ⟨7, [colC1a, colC1b], [], false⟩

def ctxC1 : Ctx := ⟨txnEmpty, 1, 0⟩

def colC2 : Column := ⟨1, 0, SchemaState.statePublic, false, false, false, false, none⟩

def idxC2 : IndexInfo := ⟨1, "ix", [0], false, false, SchemaState.statePublic⟩

def tC2 : Table := ⟨3, [colC2], [idxC2], false⟩

def colC7 : Column := ⟨1, 0, SchemaState.stateWriteOnly, false, false, false, false, none⟩

def tC7 : Table := ⟨5, [colC7], [], false⟩

def tC7pub (tid cid : Int) : Table :=
  ⟨tid, [⟨cid, 0, SchemaState.statePublic, false, false, false, false, none⟩], [], false⟩

def tC10 : Table := ⟨3, [], [], false⟩

def fC10 : KVKey → Iter × Option Err := fun _ => (⟨false, KVKey.recKey 3 0 0⟩, none)

def gC10 : KVKey → Iter × Option Err := fun _ => (⟨false, KVKey.recKey 3 0 0⟩, some Err.notExist)

def tC5col (tid : Int) (s : SchemaState) : Table :=
  ⟨tid, [⟨1, 0, s, false, false, false, false, none⟩], [], false⟩

def tC5idx (tid : Int) (s : SchemaState) : Table :=
  ⟨tid, [], [⟨1, "ix", [0], false, false, s⟩], false⟩

def colC6 (s : SchemaState) : Column := ⟨1, 0, s, false, false, false, false, none⟩

def tC6 (tid : Int) (s : SchemaState) : Table := ⟨tid, [colC6 s], [], false⟩

def colC6pk (u : Bool) : Column := ⟨1, 0, SchemaState.statePublic, true, false, u, false, none⟩

def tC6pk (tid : Int) (u : Bool) : Table := ⟨tid, [colC6pk u], [], true⟩

def colC6nn : Column := ⟨1, 0, SchemaState.statePublic, false, true, false, false, none⟩

def tC6nn (tid : Int) : Table := ⟨tid, [colC6nn], [], false⟩

def colC6nul : Column := ⟨1, 0, SchemaState.statePublic, false, false, false, false, none⟩

def tC6nul (tid : Int) : Table := ⟨tid, [colC6nul], [], false⟩

def tC3pk (tid : Int) : Table :=
  ⟨tid, [⟨1, 0, SchemaState.statePublic, true, false, false, false, none⟩], [], true⟩

def idxC3 : IndexInfo := ⟨1, "uk", [0], true, false, SchemaState.statePublic⟩

def tC3u (tid : Int) : Table :=
  ⟨tid, [⟨1, 0, SchemaState.statePublic, false, false, false, false, none⟩], [idxC3], false⟩

def ctxC3pk : Ctx :=
  ⟨⟨fun q => if q = KVKey.recKey 4 2 0 then some Val.lock else none, none⟩, 0, 0⟩

def ctxC3u : Ctx :=
  ⟨⟨fun q =>
      if q = KVKey.idxEntry 4 1 [Datum.str "a"] none then some (Val.handle 2) else none,
    none⟩, 0, 0⟩

def colC4a : Column := ⟨1, 0, SchemaState.statePublic, false, false, false, false, none⟩

def colC4b : Column :=
  ⟨2, 1, SchemaState.stateWriteOnly, false, false, false, false, some (Datum.int 42)⟩

def tC4 (tid : Int) : Table := ⟨tid, [colC4a, colC4b], [], false⟩

def colC8a : Column := ⟨1, 0, SchemaState.statePublic, false, false, false, false, none⟩

def colC8b : Column := ⟨2, 1, SchemaState.statePublic, false, false, false, false, none⟩

def idxC8a : IndexInfo := ⟨1, "i1", [0], false, false, SchemaState.statePublic⟩

def idxC8b : IndexInfo := ⟨2, "i2", [1], false, false, SchemaState.statePublic⟩

def tC8 : Table := ⟨5, [colC8a, colC8b], [idxC8a, idxC8b], false⟩

/-! Helper lemmas. -/

theorem isIdx_ne_recKey (k : KVKey) (hk : k.isIdx = true) (a b c : Int) :
    k ≠ KVKey.recKey a b c := by
  cases k with
  | recKey x y z => simp [KVKey.isIdx] at hk
  | idxEntry x y z w => intro h; cases h

theorem txnSet_store_ne (txn : Txn) (k q : KVKey) (v : Val) (hq : q ≠ k) :
    (txnSet txn k v).store q = txn.store q := by
  simp [txnSet, hq]

theorem bsSaveTo_presume (bs : BufStore) (txn : Txn) :
    (bsSaveTo bs txn).presumeKeyNotExists = txn.presumeKeyNotExists := rfl

theorem SetColValueTxn_ok (txn : Txn) (k : KVKey) (d : Datum) (txn2 : Txn)
    (heq : SetColValueTxn txn k d = .ok txn2) :
    txn2.presumeKeyNotExists = txn.presumeKeyNotExists ∧
      ∀ q, q ≠ k → txn2.store q = txn.store q := by
  unfold SetColValueTxn at heq
  cases he : encodeValue d with
  | error e => rw [he] at heq; cases heq
  | ok v =>
    rw [he] at heq
    cases heq
    exact ⟨rfl, fun q hq => txnSet_store_ne txn k q v hq⟩

theorem addRecordColsLoop_presume (t : Table) (recordID : Int) (r : List Datum) :
    ∀ (cols : List Column) (txn : Txn),
      ((addRecordColsLoop t recordID r cols txn).2).presumeKeyNotExists =
        txn.presumeKeyNotExists := by
  intro cols
  induction cols with
  | nil => intro txn; rfl
  | cons col rest ih =>
    intro txn
    simp only [addRecordColsLoop]
    split
    · exact ih txn
    · split
      · exact ih txn
      · split
        · rfl
        · split
          · rfl
          · rename_i txn1 heq
            rw [ih txn1, (SetColValueTxn_ok txn _ _ txn1 heq).1]

theorem addRecordColsLoop_idx_frame (t : Table) (recordID : Int) (r : List Datum) :
    ∀ (cols : List Column) (txn : Txn) (k : KVKey), k.isIdx = true →
      ((addRecordColsLoop t recordID r cols txn).2).store k = txn.store k := by
  intro cols
  induction cols with
  | nil => intro txn k hk; rfl
  | cons col rest ih =>
    intro txn k hk
    simp only [addRecordColsLoop]
    split
    · exact ih txn k hk
    · split
      · exact ih txn k hk
      · split
        · rfl
        · split
          · rfl
          · rename_i txn1 heq
            rw [ih txn1 k hk,
              (SetColValueTxn_ok txn _ _ txn1 heq).2 k (isIdx_ne_recKey k hk _ _ _)]

theorem addIndicesLoop_store (t : Table) (recordID : Int) (r : List Datum) :
    ∀ (l : List IndexInfo) (bs : BufStore) (txn : Txn),
      ((addIndicesLoop t recordID r l bs txn).2.2).store = txn.store := by
  intro l
  induction l with
  | nil => intro bs txn; rfl
  | cons v rest ih =>
    intro bs txn
    simp only [addIndicesLoop]
    split
    · exact ih bs txn
    · split
      · rfl
      · rename_i dupKeyErr _
        cases dupKeyErr with
        | none =>
          split
          · exact ih _ _
          · split
            · split <;> rfl
            · rfl
        | some e =>
          split
          · exact ih _ _
          · split
            · split <;> rfl
            · rfl

theorem addIndicesInner_store (t : Table) (recordID : Int) (r : List Datum)
    (bs : BufStore) (txn : Txn) :
    ((addIndicesInner t recordID r bs txn).2.2).store = txn.store := by
  unfold addIndicesInner
  split
  · dsimp only
    split
    · rfl
    · split
      · exact addIndicesLoop_store t recordID r t.indices bs _
      · rfl
  · exact addIndicesLoop_store t recordID r t.indices bs txn

theorem addIndices_store (t : Table) (recordID : Int) (r : List Datum)
    (bs : BufStore) (txn : Txn) :
    ((addIndices t recordID r bs txn).2.2).store = txn.store :=
  addIndicesInner_store t recordID r bs txn

theorem addIndices_presume (t : Table) (recordID : Int) (r : List Datum)
    (bs : BufStore) (txn : Txn) :
    ((addIndices t recordID r bs txn).2.2).presumeKeyNotExists = none := rfl

theorem addRecordBody_presume (t : Table) (ctx : Ctx) (r : List Datum)
    (recordID allocNext2 : Int) :
    (((addRecordBody t ctx r recordID allocNext2).2).txn).presumeKeyNotExists = none := by
  unfold addRecordBody
  split
  · rename_i h2 err fst txn1 heq
    have h0 := addIndices_presume t recordID r emptyBS ctx.txn
    rw [heq] at h0
    exact h0
  · rename_i fst bs1 txn1 heq
    have h0 := addIndices_presume t recordID r emptyBS ctx.txn
    rw [heq] at h0
    have hp : txn1.presumeKeyNotExists = none := h0
    split
    · rename_i err heq2
      simp [LockRow] at heq2
    · rename_i txn2 heq2
      have htxn2 : txn2 = txnSet txn1 (t.recordKey recordID none) Val.lock := by
        simp [LockRow] at heq2
        exact heq2.symm
      split
      · rename_i err txn3 heq3
        have h3 := addRecordColsLoop_presume t recordID r t.writableCols txn2
        rw [heq3] at h3
        have h4 : txn3.presumeKeyNotExists = txn2.presumeKeyNotExists := h3
        show txn3.presumeKeyNotExists = none
        rw [h4, htxn2]
        exact hp
      · rename_i txn3 heq3
        have h3 := addRecordColsLoop_presume t recordID r t.writableCols txn2
        rw [heq3] at h3
        have h4 : txn3.presumeKeyNotExists = txn2.presumeKeyNotExists := h3
        show (bsSaveTo bs1 txn3).presumeKeyNotExists = none
        rw [bsSaveTo_presume, h4, htxn2]
        exact hp

theorem addRecordBody_fail_frame (t : Table) (ctx : Ctx) (r : List Datum)
    (recordID allocNext2 : Int)
    (hfail : ((addRecordBody t ctx r recordID allocNext2).1.2).isSome = true)
    (k : KVKey) (hk : k.isIdx = true) :
    (((addRecordBody t ctx r recordID allocNext2).2).txn).store k = ctx.txn.store k := by
  unfold addRecordBody at hfail ⊢
  split
  · rename_i h2 err fst txn1 heqTop
    have h0 := addIndices_store t recordID r emptyBS ctx.txn
    rw [heqTop] at h0
    have hstore : txn1.store = ctx.txn.store := h0
    show txn1.store k = ctx.txn.store k
    rw [hstore]
  · rename_i fst bs1 txn1 heqTop
    have h0 := addIndices_store t recordID r emptyBS ctx.txn
    rw [heqTop] at h0
    have hstore : txn1.store = ctx.txn.store := h0
    rw [heqTop] at hfail
    split
    · rename_i err heq2
      simp [LockRow] at heq2
    · rename_i txn2 heq2
      have htxn2 : txn2 = txnSet txn1 (t.recordKey recordID none) Val.lock := by
        simp [LockRow] at heq2
        exact heq2.symm
      split
      · rename_i err txn3 heq3
        have h3 := addRecordColsLoop_idx_frame t recordID r t.writableCols txn2 k hk
        rw [heq3] at h3
        have h4 : txn3.store k = txn2.store k := h3
        show txn3.store k = ctx.txn.store k
        rw [h4, htxn2,
          txnSet_store_ne txn1 (t.recordKey recordID none) k Val.lock
            (isIdx_ne_recKey k hk t.id recordID 0),
          hstore]
      · rename_i txn3 heq3
        simp only [heq2, heq3] at hfail
        simp at hfail

theorem idxKey_idxIdOf (tid : Int) (idx : IndexInfo) (vals : List Datum) (h : Int) :
    (idxKey tid idx vals h).idxIdOf = some idx.id := by
  unfold idxKey
  split <;> rfl

theorem ne_idxKey_of_idxIdOf (k : KVKey) (iid tid : Int) (idx : IndexInfo)
    (vals : List Datum) (h : Int) (hk : k.idxIdOf = some iid) (hid : idx.id ≠ iid) :
    k ≠ idxKey tid idx vals h := by
  intro heq
  rw [heq, idxKey_idxIdOf] at hk
  simp at hk
  exact hid hk

theorem bsDelete_ok_frame (bs : BufStore) (txn : Txn) (k : KVKey) (bs2 : BufStore)
    (heq : bsDelete bs txn k = .ok bs2) (q : KVKey) (hq : q ≠ k) :
    bs2.buf q = bs.buf q := by
  unfold bsDelete at heq
  cases hget : bsGet bs txn k with
  | ok v => simp only [hget] at heq; cases heq; simp [hq]
  | error e => simp only [hget] at heq; cases heq

theorem idxCreate_ok_frame (tid : Int) (idx : IndexInfo) (bs : BufStore) (txn : Txn)
    (vals : List Datum) (h : Int) (bs2 : BufStore)
    (heq : idxCreate tid idx bs txn vals h = .ok bs2)
    (q : KVKey) (hq : q ≠ idxKey tid idx vals h) :
    bs2.buf q = bs.buf q := by
  unfold idxCreate at heq
  dsimp only at heq
  split at heq
  · cases hget : bsGet bs txn (idxKey tid idx vals h) with
    | ok v => simp only [hget] at heq; cases heq
    | error e =>
      simp only [hget] at heq
      split at heq
      · cases heq; simp [bsSet, hq]
      · cases heq
  · cases heq; simp [bsSet, hq]

theorem buildIndexForRow_ok_frame (t : Table) (bs : BufStore) (txn : Txn) (h : Int)
    (vals : List Datum) (idx : IndexInfo) (bs2 : BufStore)
    (heq : buildIndexForRow t bs txn h vals idx = .ok bs2)
    (q : KVKey) (hq : q ≠ idxKey t.id idx vals h) :
    bs2.buf q = bs.buf q := by
  unfold buildIndexForRow at heq
  split at heq
  · cases heq; rfl
  · exact idxCreate_ok_frame t.id idx bs txn vals h bs2 heq q hq

theorem SetColValueBS_ok_frame (bs : BufStore) (k : KVKey) (d : Datum) (bs2 : BufStore)
    (heq : SetColValueBS bs k d = .ok bs2) (q : KVKey) (hq : q ≠ k) :
    bs2.buf q = bs.buf q := by
  unfold SetColValueBS at heq
  cases he : encodeValue d with
  | error e => simp only [he] at heq; cases heq
  | ok v => simp only [he] at heq; cases heq; simp [bsSet, hq]

theorem isIdx_of_idxIdOf (k : KVKey) (iid : Int) (hk : k.idxIdOf = some iid) :
    k.isIdx = true := by
  cases k <;> simp_all [KVKey.idxIdOf, KVKey.isIdx]

theorem setNewDataLoop_idx_frame (t : Table) (h : Int) (touched : List Nat)
    (data : List Datum) :
    ∀ (cols : List Column) (bs bs2 : BufStore),
      setNewDataLoop t h touched data cols bs = .ok bs2 →
      ∀ q, q.isIdx = true → bs2.buf q = bs.buf q := by
  intro cols
  induction cols with
  | nil =>
    intro bs bs2 heq q hq
    cases heq
    rfl
  | cons col rest ih =>
    intro bs bs2 heq q hq
    rw [setNewDataLoop] at heq
    split at heq
    · cases hset : SetColValueBS bs (t.recordKey h (some col))
          (data.getD col.offset Datum.null) with
      | error e => simp only [hset] at heq; cases heq
      | ok bs1 =>
        simp only [hset] at heq
        rw [ih bs1 bs2 heq q hq,
          SetColValueBS_ok_frame bs _ _ bs1 hset q (isIdx_ne_recKey q hq _ _ _)]
    · exact ih bs bs2 heq q hq

theorem rebuildIndicesLoop_frame (t : Table) (txn : Txn) (h : Int) (touched : List Nat)
    (oldData newData : List Datum) (iid : Int) :
    ∀ (l : List IndexInfo) (bs bs2 : BufStore),
      (∀ idx2 ∈ l, idxTouchedB touched idx2 = true → idx2.id ≠ iid) →
      rebuildIndicesLoop t txn h touched oldData newData l bs = .ok bs2 →
      ∀ q, q.idxIdOf = some iid → bs2.buf q = bs.buf q := by
  intro l
  induction l with
  | nil =>
    intro bs bs2 hno heq q hq
    cases heq
    rfl
  | cons idx rest ih =>
    intro bs bs2 hno heq q hq
    have hnorest : ∀ idx2 ∈ rest, idxTouchedB touched idx2 = true → idx2.id ≠ iid :=
      fun idx2 hm => hno idx2 (List.mem_cons_of_mem idx hm)
    rw [rebuildIndicesLoop] at heq
    split at heq
    · rename_i htouched
      have hid : idx.id ≠ iid := hno idx (List.mem_cons_self idx rest) htouched
      cases hold : idxFetchValues idx oldData with
      | error e => simp only [hold] at heq; cases heq
      | ok oldVs =>
        simp only [hold] at heq
        cases hnew : idxFetchValues idx newData with
        | error e => simp only [hnew] at heq; cases heq
        | ok newVs =>
          simp only [hnew] at heq
          cases hdel : removeRowIndex t bs txn h oldVs idx with
          | ok b =>
            simp only [hdel] at heq
            cases hbld : buildIndexForRow t b txn h newVs idx with
            | error e => simp only [hbld] at heq; cases heq
            | ok bs3 =>
              simp only [hbld] at heq
              rw [ih bs3 bs2 hnorest heq q hq,
                buildIndexForRow_ok_frame t b txn h newVs idx bs3 hbld q
                  (ne_idxKey_of_idxIdOf q iid t.id idx newVs h hq hid)]
              exact bsDelete_ok_frame bs txn _ b hdel q
                (ne_idxKey_of_idxIdOf q iid t.id idx oldVs h hq hid)
          | error e =>
            simp only [hdel] at heq
            cases hbld : buildIndexForRow t bs txn h newVs idx with
            | error e2 => simp only [hbld] at heq; cases heq
            | ok bs3 =>
              simp only [hbld] at heq
              rw [ih bs3 bs2 hnorest heq q hq,
                buildIndexForRow_ok_frame t bs txn h newVs idx bs3 hbld q
                  (ne_idxKey_of_idxIdOf q iid t.id idx newVs h hq hid)]
    · exact ih bs bs2 hnorest heq q hq

theorem bsSaveTo_store_of_buf_none (bs : BufStore) (txn : Txn) (q : KVKey)
    (hq : bs.buf q = none) : (bsSaveTo bs txn).store q = txn.store q := by
  simp [bsSaveTo, hq]

/-- C8: an index none of whose column offsets is in the touched set (as it
stands when rebuildIndices runs, that is after the on-update augmentation) is
left completely unchanged by UpdateRecord: no delete or create is staged for
it, and provided every index sharing its id is equally untouched, every stored
entry under its index id is identical before and after the update, on every
exit path. -/
theorem c8_untouched_index_frame (t : Table) (ctx : Ctx) (h : Int)
    (oldData newData : List Datum) (touched : List Nat) (idx : IndexInfo)
    (hmem : idx ∈ t.indices)
    (huntouched : idxTouchedB
      (setOnUpdateData t touched (updCurrentData t newData)).1 idx = false)
    (hids : ∀ idx2 ∈ t.indices, idx2.id = idx.id →
        idxTouchedB (setOnUpdateData t touched (updCurrentData t newData)).1 idx2 = false)
    (k : KVKey) (hk : k.idxIdOf = some idx.id) :
    ((UpdateRecord t ctx h oldData newData touched).2).txn.store k = ctx.txn.store k := by
  have hno : ∀ idx2 ∈ t.indices,
      idxTouchedB (setOnUpdateData t touched (updCurrentData t newData)).1 idx2 = true →
      idx2.id ≠ idx.id := by
    intro idx2 hm ht heq2
    rw [hids idx2 hm heq2] at ht
    cases ht
  unfold UpdateRecord
  rcases hsud : setOnUpdateData t touched (updCurrentData t newData) with ⟨touched1, currentData1⟩
  rw [hsud] at hno
  dsimp only
  split
  · rfl
  · rename_i bs1 heq1
    split
    · rfl
    · rename_i bs2 heq2
      have hb1 : bs1.buf k = none :=
        setNewDataLoop_idx_frame t h touched1 currentData1 t.Cols emptyBS bs1 heq1 k
          (isIdx_of_idxIdOf k idx.id hk)
      have hb2 : bs2.buf k = bs1.buf k :=
        rebuildIndicesLoop_frame t ctx.txn h touched1 oldData currentData1 idx.id
          t.indices bs1 bs2 hno heq2 k hk
      exact bsSaveTo_store_of_buf_none bs2 ctx.txn k (hb2.trans hb1)

/-! Claim theorems. -/

/-- C1, counterexample: AddRecord fails on its second column, whose value the
codec rejects, yet the write of the first column is present in the transaction
afterwards.  AddRecord writes columns through SetColValue applied directly to
the transaction rather than to the buffered scope, so a column write preceding
the failure leaks into the transaction even though AddRecord returns an error. -/
theorem c1_counterexample :
    ((AddRecord tC1 ctxC1 [Datum.int 5, Datum.unsupported]).1.2).isSome = true ∧
    (AddRecord tC1 ctxC1 [Datum.int 5, Datum.unsupported]).2.txn.store
      (KVKey.recKey 7 1 1) = some (Val.datum (Datum.int 5)) :=
  ⟨by decide, by decide⟩

/-- C1, amended: the all-or-nothing guarantee of the Buffered Mutation Scope
holds for the index writes of AddRecord: they are staged in the scope and
merged only on success, so on every error exit no index key of the transaction
has changed.  Column writes are exempt because the source applies them to the
transaction directly. -/
theorem c1_amended_scope (t : Table) (ctx : Ctx) (r : List Datum)
    (hfail : ((AddRecord t ctx r).1.2).isSome = true)
    (k : KVKey) (hk : k.isIdx = true) :
    ((AddRecord t ctx r).2).txn.store k = ctx.txn.store k := by
  unfold AddRecord at hfail ⊢
  cases hfind : t.Cols.find? (fun c => t.isPKHandleColumn c) with
  | some col =>
    rw [hfind] at hfail
    exact addRecordBody_fail_frame t ctx r _ _ hfail k hk
  | none =>
    rw [hfind] at hfail
    exact addRecordBody_fail_frame t ctx r _ _ hfail k hk

/-- C1, amended, witness: the counterexample input instantiates the amended
theorem at the index key of a foreign index id. -/
theorem c1_amended_scope_witness :
    ((AddRecord tC1 ctxC1 [Datum.int 5, Datum.unsupported]).1.2).isSome = true ∧
    (KVKey.idxEntry 7 1 [] none).isIdx = true ∧
    ((AddRecord tC1 ctxC1 [Datum.int 5, Datum.unsupported]).2).txn.store
        (KVKey.idxEntry 7 1 [] none) =
      ctxC1.txn.store (KVKey.idxEntry 7 1 [] none) :=
  ⟨by decide, by decide,
    c1_amended_scope tC1 ctxC1 [Datum.int 5, Datum.unsupported] (by decide)
      (KVKey.idxEntry 7 1 [] none) (by decide)⟩

/-- C2: the claim says any failure of the delete of the old index entry aborts
UpdateRecord.  At this input the old index entry is absent, so the staged
delete fails with the key-not-found class (second conjunct evaluates exactly
the delete the loop performs at that point), yet UpdateRecord returns success
and stages the create of the new entry (first and third conjuncts): inside
rebuildIndices the source calls removeRowIndex without assigning its result
and tests the stale err of FetchValues, so the delete error is discarded. -/
theorem c2_delete_error_swallowed :
    (UpdateRecord tC2 ctxEmpty 9 [Datum.int 1] [Datum.int 2] [0]).1 = none ∧
    bsDelete (bsSet emptyBS (KVKey.recKey 3 9 1) (Val.datum (Datum.int 2))) txnEmpty
      (KVKey.idxEntry 3 1 [Datum.int 1] (some 9)) = .error Err.notExist ∧
    (UpdateRecord tC2 ctxEmpty 9 [Datum.int 1] [Datum.int 2] [0]).2.txn.store
      (KVKey.idxEntry 3 1 [Datum.int 2] (some 9)) = some (Val.handle 9) :=
  ⟨by decide, rfl, by decide⟩

/-- C7, counterexample: the touched set contains offset 0 and the column at
offset 0 is writable (WriteOnly state), yet setNewData stages nothing: the
scope comes back unchanged and holds no entry at the record key of the column,
because setNewData iterates only the public column list Cols. -/
theorem c7_counterexample :
    setNewData tC7 emptyBS 1 [0] [Datum.int 7] = .ok emptyBS ∧
    emptyBS.buf (KVKey.recKey 5 1 1) = none :=
  ⟨rfl, rfl⟩

/-- C7, amended: setNewData stages a write of the new value at the record key
of every touched column of the public column list. -/
theorem c7_amended_staged (tid cid h : Int) (v : Datum)
    (he : encodeValue v = Except.ok (Val.datum v)) :
    ∃ bs2, setNewData (tC7pub tid cid) emptyBS h [0] [v] = .ok bs2 ∧
      bs2.buf (KVKey.recKey tid h cid) = some (some (Val.datum v)) := by
  refine ⟨bsSet emptyBS (KVKey.recKey tid h cid) (Val.datum v), ?_, ?_⟩
  · simp [setNewData, setNewDataLoop, tC7pub, Table.Cols, SetColValueBS, he, Table.recordKey]
  · simp [bsSet]

/-- C7, amended, witness. -/
theorem c7_amended_staged_witness :
    encodeValue (Datum.int 3) = Except.ok (Val.datum (Datum.int 3)) ∧
    ∃ bs2, setNewData (tC7pub 5 1) emptyBS 2 [0] [Datum.int 3] = .ok bs2 ∧
      bs2.buf (KVKey.recKey 5 2 1) = some (some (Val.datum (Datum.int 3))) :=
  ⟨rfl, c7_amended_staged 5 1 2 (Datum.int 3) rfl⟩

/-- C9: the presume-key-not-exists hint is cleared on every exit path of
addIndices (its deferred DelOption), and consequently the transaction carries
no hint after any exit of AddRecord. -/
theorem c9_hint_cleared :
    (∀ (t : Table) (recordID : Int) (r : List Datum) (bs : BufStore) (txn : Txn),
        ((addIndices t recordID r bs txn).2.2).presumeKeyNotExists = none) ∧
    (∀ (t : Table) (ctx : Ctx) (r : List Datum),
        (((AddRecord t ctx r).2).txn).presumeKeyNotExists = none) := by
  constructor
  · intro t recordID r bs txn
    exact addIndices_presume t recordID r bs txn
  · intro t ctx r
    unfold AddRecord
    cases hfind : t.Cols.find? (fun c => t.isPKHandleColumn c) with
    | some col => exact addRecordBody_presume t ctx r _ _
    | none => exact addRecordBody_presume t ctx r _ _

/-- C10: Seek never consumes the error returned by the transaction seek: its
result depends only on the iterator component, so two seeks returning the same
iterator but different errors give identical results. -/
theorem c10_seek_error_discarded (t : Table) (f g : KVKey → Iter × Option Err) (h : Int)
    (hfst : ∀ k, (f k).1 = (g k).1) :
    Table.Seek t f h = Table.Seek t g h := by
  simp only [Table.Seek, hfst]

/-- C10, witness: two seek functions returning the same invalid iterator, one
with no error and one with a key-not-found error, give the same Seek result. -/
theorem c10_seek_error_discarded_witness :
    (∀ k, (fC10 k).1 = (gC10 k).1) ∧ Table.Seek tC10 fC10 4 = Table.Seek tC10 gC10 4 :=
  ⟨fun _ => rfl, c10_seek_error_discarded tC10 fC10 gC10 4 (fun _ => rfl)⟩

/-- C5: RemoveRecord against an empty store, so that every delete of a column
record key or index entry fails with key-not-found.  First conjunct: one
column in any non-public state, the failure is skipped and RemoveRecord
succeeds.  Second: the same with a Public column surfaces the error.  Third
and fourth: the same pair for an index entry delete, through the state of the
index. -/
theorem c5_remove_tolerance :
    (∀ (tid h : Int) (s : SchemaState), ¬s = SchemaState.statePublic →
        (RemoveRecord (tC5col tid s) ctxEmpty h []).1 = none) ∧
    (∀ (tid h : Int),
        (RemoveRecord (tC5col tid SchemaState.statePublic) ctxEmpty h []).1 =
          some Err.notExist) ∧
    (∀ (tid h : Int) (s : SchemaState) (v : Datum), ¬s = SchemaState.statePublic →
        (RemoveRecord (tC5idx tid s) ctxEmpty h [v]).1 = none) ∧
    (∀ (tid h : Int) (v : Datum),
        (RemoveRecord (tC5idx tid SchemaState.statePublic) ctxEmpty h [v]).1 =
          some Err.notExist) := by
  refine ⟨?_, ?_, ?_, ?_⟩
  · intro tid h s hs
    simp [RemoveRecord, removeRowData, removeRowDataLoop, removeRowIndices,
      removeRowIndicesLoop, LockRow, txnSet, txnDelete, txnGet, Table.recordKey,
      tC5col, ctxEmpty, txnEmpty, Err.isNotExist, hs]
  · intro tid h
    simp [RemoveRecord, removeRowData, removeRowDataLoop, removeRowIndices,
      removeRowIndicesLoop, LockRow, txnSet, txnDelete, txnGet, Table.recordKey,
      tC5col, ctxEmpty, txnEmpty, Err.isNotExist]
  · intro tid h s v hs
    simp [RemoveRecord, removeRowData, removeRowDataLoop, removeRowIndices,
      removeRowIndicesLoop, LockRow, txnSet, txnDelete, txnGet, Table.recordKey,
      tC5idx, ctxEmpty, txnEmpty, Err.isNotExist, hs, idxFetchValues, fetchValuesLoop,
      idxDeleteTxn, idxKey, idxDistinct]
  · intro tid h v
    simp [RemoveRecord, removeRowData, removeRowDataLoop, removeRowIndices,
      removeRowIndicesLoop, LockRow, txnSet, txnDelete, txnGet, Table.recordKey,
      tC5idx, ctxEmpty, txnEmpty, Err.isNotExist, idxFetchValues, fetchValuesLoop,
      idxDeleteTxn, idxKey, idxDistinct]

/-- C5, witness: the four conjuncts instantiated at table id 2, handle 5, the
WriteOnly state for the tolerated cases and the int value 1 for the index row. -/
theorem c5_remove_tolerance_witness :
    (¬SchemaState.stateWriteOnly = SchemaState.statePublic ∧
      (RemoveRecord (tC5col 2 SchemaState.stateWriteOnly) ctxEmpty 5 []).1 = none) ∧
    (RemoveRecord (tC5col 2 SchemaState.statePublic) ctxEmpty 5 []).1 = some Err.notExist ∧
    (RemoveRecord (tC5idx 2 SchemaState.stateWriteOnly) ctxEmpty 5 [Datum.int 1]).1 = none ∧
    (RemoveRecord (tC5idx 2 SchemaState.statePublic) ctxEmpty 5 [Datum.int 1]).1 =
      some Err.notExist :=
  ⟨⟨by decide, c5_remove_tolerance.1 2 5 SchemaState.stateWriteOnly (by decide)⟩,
    c5_remove_tolerance.2.1 2 5,
    c5_remove_tolerance.2.2.1 2 5 SchemaState.stateWriteOnly (Datum.int 1) (by decide),
    c5_remove_tolerance.2.2.2 2 5 (Datum.int 1)⟩

/-- C6: RowWithCols behaviour per column.  First conjunct: requesting a column
in any non-public state fails with ColumnStateNonPublic.  Second: the
PKIsHandle column is synthesized from the handle, unsigned when the unsigned
flag is set, signed otherwise, for every transaction (hence without reading
storage).  Third: a missing record key under the not-null flag is an error.
Fourth: a missing record key on a nullable column yields null. -/
theorem c6_row_with_cols :
    (∀ (tid : Int) (s : SchemaState) (txn : Txn) (h : Int),
        ¬s = SchemaState.statePublic →
        RowWithCols (tC6 tid s) txn h [colC6 s] = .error Err.columnStateNonPublic) ∧
    (∀ (tid : Int) (u : Bool) (txn : Txn) (h : Int),
        RowWithCols (tC6pk tid u) txn h [colC6pk u] =
          .ok [if u then Datum.uint (toUint64 h) else Datum.int h]) ∧
    (∀ (tid : Int) (txn : Txn) (h : Int),
        txn.store (KVKey.recKey tid h 1) = none →
        RowWithCols (tC6nn tid) txn h [colC6nn] = .error Err.notExist) ∧
    (∀ (tid : Int) (txn : Txn) (h : Int),
        txn.store (KVKey.recKey tid h 1) = none →
        RowWithCols (tC6nul tid) txn h [colC6nul] = .ok [Datum.null]) := by
  refine ⟨?_, ?_, ?_, ?_⟩
  · intro tid s txn h hs
    simp [RowWithCols, RowWithColsLoop, colC6, hs]
  · intro tid u txn h
    cases u <;> simp [RowWithCols, RowWithColsLoop, colC6pk, tC6pk, Table.isPKHandleColumn]
  · intro tid txn h hst
    simp [RowWithCols, RowWithColsLoop, colC6nn, tC6nn, txnGet, Table.recordKey, hst,
      Err.isNotExist, Table.isPKHandleColumn]
  · intro tid txn h hst
    simp [RowWithCols, RowWithColsLoop, colC6nul, tC6nul, txnGet, Table.recordKey, hst,
      Err.isNotExist, Table.isPKHandleColumn]

/-- C6, witness: the four conjuncts instantiated at table id 2, handle 5 and
the empty transaction; the PKIsHandle case with the unsigned flag set. -/
theorem c6_row_with_cols_witness :
    (¬SchemaState.stateWriteOnly = SchemaState.statePublic ∧
      RowWithCols (tC6 2 SchemaState.stateWriteOnly) txnEmpty 5
          [colC6 SchemaState.stateWriteOnly] = .error Err.columnStateNonPublic) ∧
    RowWithCols (tC6pk 2 true) txnEmpty 5 [colC6pk true] = .ok [Datum.uint (toUint64 5)] ∧
    (txnEmpty.store (KVKey.recKey 2 5 1) = none ∧
      RowWithCols (tC6nn 2) txnEmpty 5 [colC6nn] = .error Err.notExist) ∧
    (txnEmpty.store (KVKey.recKey 2 5 1) = none ∧
      RowWithCols (tC6nul 2) txnEmpty 5 [colC6nul] = .ok [Datum.null]) :=
  ⟨⟨by decide, c6_row_with_cols.1 2 SchemaState.stateWriteOnly txnEmpty 5 (by decide)⟩,
    c6_row_with_cols.2.1 2 true txnEmpty 5,
    ⟨rfl, c6_row_with_cols.2.2.1 2 txnEmpty 5 rfl⟩,
    ⟨rfl, c6_row_with_cols.2.2.2 2 txnEmpty 5 rfl⟩⟩

/-- C3: both duplicate cases of AddRecord.  First conjunct: on a PKIsHandle
table whose record key for the requested handle already exists, AddRecord
returns that handle with a key-exists class error.  Second conjunct: on a
table with one unique index whose distinct entry at the same column value
already maps to the handle of an existing row, AddRecord returns that existing
handle (recovered by seeking the index at the same value) with the
pre-composed key-exists error. -/
theorem c3_duplicate_key :
    (∀ (tid h0 : Int) (w : Val) (ctx : Ctx),
        ctx.txn.store (KVKey.recKey tid h0 0) = some w →
        ∃ e, (AddRecord (tC3pk tid) ctx [Datum.int h0]).1 = (h0, some e) ∧
          e.isKeyExists = true) ∧
    (∀ (tid h0 : Int) (v : Datum) (sv : String) (ctx : Ctx),
        v.isNull = false → datumToString v = Except.ok sv →
        ctx.txn.store (KVKey.idxEntry tid 1 [v] none) = some (Val.handle h0) →
        ∃ e, (AddRecord (tC3u tid) ctx [v]).1 = (h0, some e) ∧ e.isKeyExists = true) := by
  constructor
  · intro tid h0 w ctx hst
    simp [AddRecord, addRecordBody, addIndices, addIndicesInner, addIndicesLoop,
      Table.Cols, tC3pk, Table.isPKHandleColumn, List.find?, Datum.GetInt64,
      txnGet, setOption, delOption, Table.recordKey, hst, Err.isNotExist, Err.isKeyExists]
  · intro tid h0 v sv ctx hv hsv hst
    simp [AddRecord, addRecordBody, addIndices, addIndicesInner, addIndicesLoop,
      Table.Cols, tC3u, idxC3, Table.isPKHandleColumn, List.find?, txnGet, setOption,
      delOption, Table.recordKey, hst, hv, hsv, Err.isNotExist, Err.isKeyExists,
      idxFetchValues, fetchValuesLoop, genIndexKeyStr, genIndexKeyStrLoop, idxCreate,
      idxDistinct, idxKey, bsGet, emptyBS, idxSeekHandle]

/-- C3, witness: a PKIsHandle table with handle 2 already present, and a
unique-index table whose entry for the string value a already maps to
handle 2. -/
theorem c3_duplicate_key_witness :
    (ctxC3pk.txn.store (KVKey.recKey 4 2 0) = some Val.lock ∧
      ∃ e, (AddRecord (tC3pk 4) ctxC3pk [Datum.int 2]).1 = (2, some e) ∧
        e.isKeyExists = true) ∧
    ((Datum.str "a").isNull = false ∧
      datumToString (Datum.str "a") = Except.ok "a" ∧
      ctxC3u.txn.store (KVKey.idxEntry 4 1 [Datum.str "a"] none) = some (Val.handle 2) ∧
      ∃ e, (AddRecord (tC3u 4) ctxC3u [Datum.str "a"]).1 = (2, some e) ∧
        e.isKeyExists = true) :=
  ⟨⟨by decide, c3_duplicate_key.1 4 2 Val.lock ctxC3pk (by decide)⟩,
    ⟨rfl, rfl, by decide,
      c3_duplicate_key.2 4 2 (Datum.str "a") "a" ctxC3u rfl rfl (by decide)⟩⟩

/-- C4: round trip of AddRecord and Row on a table with one public nullable
column without default (offset 0) and one WriteOnly column with default 42
(offset 1), over a store with no record key at the allocated handle for the
public column.  For every encodable supplied value v: the insert succeeds
with the allocated handle, a subsequent Row of that handle returns v for the
public column (in particular a supplied null, which the insert skips, decodes
back to null), and the WriteOnly column stores its cast default rather than
the caller-supplied value w, so it reads back the default once the column
becomes readable. -/
theorem c4_roundtrip (tid : Int) (ctx : Ctx) (v w : Datum)
    (henc : encodeValue v = Except.ok (Val.datum v))
    (hst : ctx.txn.store (KVKey.recKey tid ctx.allocNext 1) = none) :
    (AddRecord (tC4 tid) ctx [v, w]).1 = (ctx.allocNext, none) ∧
    Row (tC4 tid) ((AddRecord (tC4 tid) ctx [v, w]).2).txn ctx.allocNext = .ok [v] ∧
    ((AddRecord (tC4 tid) ctx [v, w]).2).txn.store (KVKey.recKey tid ctx.allocNext 2) =
      some (Val.datum (Datum.int 42)) := by
  by_cases hn : v.isNull = true
  · have hv : v = Datum.null := by cases v <;> simp_all [Datum.isNull]
    subst hv
    refine ⟨?_, ?_, ?_⟩ <;>
      simp [AddRecord, addRecordBody, addIndices, addIndicesInner, addIndicesLoop,
        Table.Cols, Table.writableCols, tC4, colC4a, colC4b, List.find?,
        Table.isPKHandleColumn, LockRow, txnSet, SetColValueTxn, encodeValue,
        GetColDefaultValue, CastValue, Table.recordKey, bsSaveTo, emptyBS, Row,
        RowWithCols, RowWithColsLoop, txnGet, decodeColumnValue, List.getD, hst,
        addRecordColsLoop, delOption, setOption, Datum.isNull, Err.isNotExist]
  · have hn2 : v.isNull = false := by simpa using hn
    have henc42 : encodeValue (Datum.int 42) = Except.ok (Val.datum (Datum.int 42)) := rfl
    refine ⟨?_, ?_, ?_⟩ <;>
      simp [AddRecord, addRecordBody, addIndices, addIndicesInner, addIndicesLoop,
        Table.Cols, Table.writableCols, tC4, colC4a, colC4b, List.find?,
        Table.isPKHandleColumn, LockRow, txnSet, SetColValueTxn,
        GetColDefaultValue, CastValue, Table.recordKey, bsSaveTo, emptyBS, Row,
        RowWithCols, RowWithColsLoop, txnGet, decodeColumnValue, List.getD,
        henc, henc42, hst, hn2, addRecordColsLoop, delOption, setOption,
        Err.isNotExist]

/-- C4, witness: inserting the int value 7 next to a WriteOnly column supplied
with a string; the insert succeeds at handle 0, Row returns 7 and the
WriteOnly column stores 42. -/
theorem c4_roundtrip_witness :
    encodeValue (Datum.int 7) = Except.ok (Val.datum (Datum.int 7)) ∧
    ctxEmpty.txn.store (KVKey.recKey 6 ctxEmpty.allocNext 1) = none ∧
    ((AddRecord (tC4 6) ctxEmpty [Datum.int 7, Datum.str "x"]).1 =
        (ctxEmpty.allocNext, none) ∧
      Row (tC4 6) ((AddRecord (tC4 6) ctxEmpty [Datum.int 7, Datum.str "x"]).2).txn
          ctxEmpty.allocNext = .ok [Datum.int 7] ∧
      ((AddRecord (tC4 6) ctxEmpty [Datum.int 7, Datum.str "x"]).2).txn.store
          (KVKey.recKey 6 ctxEmpty.allocNext 2) = some (Val.datum (Datum.int 42))) :=
  ⟨rfl, rfl, c4_roundtrip 6 ctxEmpty (Datum.int 7) (Datum.str "x") rfl rfl⟩

/-- C8, witness: a table with two public single-column indices; the update
touches offset 0 only, so the index on offset 1 (id 2) is untouched and its
entry key is unchanged by the update. -/
theorem c8_untouched_index_frame_witness :
    idxC8b ∈ tC8.indices ∧
    idxTouchedB (setOnUpdateData tC8 [0] (updCurrentData tC8 [Datum.int 3, Datum.int 2])).1
      idxC8b = false ∧
    (∀ idx2 ∈ tC8.indices, idx2.id = idxC8b.id →
      idxTouchedB (setOnUpdateData tC8 [0] (updCurrentData tC8 [Datum.int 3, Datum.int 2])).1
        idx2 = false) ∧
    (KVKey.idxEntry 5 2 [Datum.int 2] (some 9)).idxIdOf = some idxC8b.id ∧
    ((UpdateRecord tC8 ctxEmpty 9 [Datum.int 1, Datum.int 2] [Datum.int 3, Datum.int 2]
        [0]).2).txn.store (KVKey.idxEntry 5 2 [Datum.int 2] (some 9)) =
      ctxEmpty.txn.store (KVKey.idxEntry 5 2 [Datum.int 2] (some 9)) :=
  ⟨by decide, by decide, by decide, by decide,
    c8_untouched_index_frame tC8 ctxEmpty 9 [Datum.int 1, Datum.int 2]
      [Datum.int 3, Datum.int 2] [0] idxC8b (by decide) (by decide) (by decide)
      (KVKey.idxEntry 5 2 [Datum.int 2] (some 9)) (by decide)⟩

end TidbTables
